import Mathlib

/-!
Verification of the Audience Query Management & Response System
(categorization, assignment and escalation engine, plus the dashboard
frontend helpers).

The repository ships the Next.js frontend (`frontend/lib/utils.ts`,
`frontend/lib/api.ts`, the dashboard pages); those functions are embedded
here directly from the TypeScript source.  The FastAPI backend that
implements the engine (Classifier, Team Director, Load Balancer,
Assignment Coordinator, Escalation Monitor) is not part of the source
tree; its operations are modelled from the specification, and every such
definition is marked `Modelled from the spec:` in its doc comment.

Times are embedded as integers: milliseconds since the epoch (`Int`) for
the frontend date helpers, minutes (`Nat`) for the engine's SLA clock.
JavaScript `Math.floor(a / b)` on integral millisecond values is floor
division, which for the positive constant divisors used here coincides
with Lean's `Int` division.
-/

/-- Priority enum from the data model: urgent/high/medium/low. -/
inductive Priority
  | low
  | medium
  | high
  | urgent
deriving DecidableEq

/-- Category enum from the data model (question/request/complaint/feedback/
bug_report) plus the `general` default used by the rule fallback. -/
inductive Category
  | question
  | request
  | complaint
  | feedback
  | bug_report
  | general
deriving DecidableEq

/-- Query status enum: new → assigned → in_progress → resolved → closed. -/
inductive QStatus
  | new
  | assigned
  | in_progress
  | resolved
  | closed
deriving DecidableEq

/-- Team enum: support/engineering/sales/finance. -/
inductive Team
  | support
  | engineering
  | sales
  | finance
deriving DecidableEq

/-- Escalation state-machine states of the Escalation Monitor. -/
inductive EscState
  | onTrack
  | atRisk
  | escalated
deriving DecidableEq

/-- Position of a status along the forward lifecycle
new → assigned → in_progress → resolved → closed. -/
def statusRank : QStatus → Nat
  | .new => 0
  | .assigned => 1
  | .in_progress => 2
  | .resolved => 3
  | .closed => 4

/-- Rank of a priority in the urgency order low < medium < high < urgent. -/
def priorityRank : Priority → Nat
  | .low => 0
  | .medium => 1
  | .high => 2
  | .urgent => 3

/-! ## Frontend: `formatRelativeTime` (frontend/lib/utils.ts)

```ts
const diffMs = now.getTime() - then.getTime()
const diffMins = Math.floor(diffMs / 60000)
const diffHours = Math.floor(diffMs / 3600000)
const diffDays = Math.floor(diffMs / 86400000)
if (diffMins < 1) return 'just now'
if (diffMins < 60) return diffMins + 'm ago'
if (diffHours < 24) return diffHours + 'h ago'
return diffDays + 'd ago'
```
-/

/-- The function `formatRelativeTime` from `frontend/lib/utils.ts`, with the two dates
given as epoch milliseconds.  `Int` division by the positive constants is
exactly `Math.floor` of the real quotient. -/
def formatRelativeTime (nowMs thenMs : Int) : String :=
  let diffMs := nowMs - thenMs
  let diffMins := diffMs / 60000
  let diffHours := diffMs / 3600000
  let diffDays := diffMs / 86400000
  if diffMins < 1 then "just now"
  else if diffMins < 60 then toString diffMins ++ "m ago"
  else if diffHours < 24 then toString diffHours ++ "h ago"
  else toString diffDays ++ "d ago"

/-! ## Frontend: inbox pagination (frontend/app/dashboard/inbox/page.tsx)

`totalPages = Math.ceil((data?.total || 0) / 20)`; the Previous button
runs `setPage(p => Math.max(1, p - 1))`, the Next button
`setPage(p => Math.min(totalPages, p + 1))`.
-/

/-- The value `Math.ceil(total / 20)` on a nonnegative integer `total`. -/
def totalPages (total : Nat) : Nat := (total + 19) / 20

/-- The Previous-button handler: `p => Math.max(1, p - 1)`
(on `Nat`, truncated subtraction agrees with JS here since `p ≥ 1`
whenever the button is enabled, and `max 1 _` absorbs the difference). -/
def prevPage (page : Nat) : Nat := max 1 (page - 1)

/-- The Next-button handler: `p => Math.min(totalPages, p + 1)`. -/
def nextPage (tp page : Nat) : Nat := min tp (page + 1)

/-! ## Frontend: query-detail status update (QueryDetailPage)

The status `Select` offers all five statuses unconditionally, and
`handleStatusChange` forwards the selected value through
`queriesApi.updateStatus`, which PUTs exactly `{ status }` for the query.
-/

/-- The options of the status `Select` on the query detail page, in the
order they appear in the JSX. -/
def statusSelectOptions : List QStatus :=
  [.new, .assigned, .in_progress, .resolved, .closed]

/-! ## Classifier (spec §4.1) -/

namespace Classifier

/-- Modelled from the spec: the outcome of the external AI-classification
call (`classify(text) → {category, priority, tags} | failure`, with a
caller-enforced timeout).  A successful call carries the raw category and
priority strings of the structured response, which still have to be
parsed into the enums and may be unparsable. -/
inductive AICall
  | failure
  | timeout
  | response (category priority : String) (tags : List String)

/-- Classification result `{category, priority, tags}`; category and
priority are nullable in the data model until classified, so the result
carries `Option`s and the totality theorem shows they are always
populated. -/
structure Classification where
  category : Option Category
  priority : Option Priority
  tags : List String
deriving DecidableEq

/-- Modelled from the spec: parsing the AI response's category string
into the category enum (question/request/complaint/feedback/bug_report);
any other string is unparsable. -/
def parseCategory (s : String) : Option Category :=
  if s = "question" then some .question
  else if s = "request" then some .request
  else if s = "complaint" then some .complaint
  else if s = "feedback" then some .feedback
  else if s = "bug_report" then some .bug_report
  else none

/-- Modelled from the spec: parsing the AI response's priority string
into the priority enum; any other string is unparsable. -/
def parsePriority (s : String) : Option Priority :=
  if s = "urgent" then some .urgent
  else if s = "high" then some .high
  else if s = "medium" then some .medium
  else if s = "low" then some .low
  else none

/-- Modelled from the spec: the primary AI path — parse a structured
response into the enums; a failed or timed-out call, or an unparsable
category or priority, yields no result and forces the fallback. -/
def aiParse : AICall → Option Classification
  | .failure => none
  | .timeout => none
  | .response c p tags =>
    match parseCategory c, parsePriority p with
    | some cat, some pri => some ⟨some cat, some pri, tags⟩
    | _, _ => none

/-- Here `leadsWith needle hay` holds when `needle` occurs at the very start
of `hay` (plain character-list matching). -/
def leadsWith : List Char → List Char → Bool
  | [], _ => true
  | _ :: _, [] => false
  | a :: as, b :: bs => a == b && leadsWith as bs

/-- Here `hasSub needle hay` holds when `needle` occurs contiguously somewhere in
`hay`. -/
def hasSub (needle : List Char) : List Char → Bool
  | [] => needle.isEmpty
  | c :: rest => leadsWith needle (c :: rest) || hasSub needle rest

/-- Keyword test on strings, used by the rule fallback. -/
def containsKeyword (text kw : String) : Bool :=
  hasSub kw.data text.data

/-- Modelled from the spec: the deterministic keyword/pattern fallback
over subject+content — "urgent"/"asap" force priority urgent and (per
scenario D) category complaint, "broken" maps to bug_report, "refund" to
a billing complaint; default category = general, default priority =
medium.  Zero external dependency, always terminates with a value. -/
def ruleClassify (subject content : String) : Classification :=
  let text := subject ++ " " ++ content
  if containsKeyword text "urgent" || containsKeyword text "asap" then
    ⟨some .complaint, some .urgent, ["urgent"]⟩
  else if containsKeyword text "broken" then
    ⟨some .bug_report, some .high, ["technical"]⟩
  else if containsKeyword text "refund" then
    ⟨some .complaint, some .high, ["billing"]⟩
  else
    ⟨some .general, some .medium, []⟩

/-- Modelled from the spec: `Classifier.classify` — primary AI path with
the rule-based fallback invoked whenever the AI call fails, times out or
returns an unparsable result; the caller never observes a failure. -/
def classify (ai : AICall) (subject content : String) : Classification :=
  (aiParse ai).getD (ruleClassify subject content)

end Classifier

/-! ## Team Director (spec §4.2) -/

namespace TeamDirector

/-- Modelled from the spec: the static total `category → Team` mapping.
Scenario C fixes bug_report → engineering; unmapped categories route to
the default team (support). -/
def teamFor : Category → Team
  | .bug_report => .engineering
  | .complaint => .support
  | .question => .support
  | .feedback => .support
  | .request => .sales
  | .general => .support

end TeamDirector

/-! ## Load Balancer (spec §4.3) -/

namespace LoadBalancer

/-- Agent record: identifier, name, team, derived active-ticket count and
the per-priority capacity ceilings (ceilings may differ by priority). -/
structure Agent where
  id : Nat
  name : String
  team : Team
  active_tickets : Nat
  ceil_urgent : Nat
  ceil_high : Nat
  ceil_medium : Nat
  ceil_low : Nat
deriving DecidableEq

/-- The capacity ceiling configured for this agent and priority. -/
def ceilingFor (a : Agent) : Priority → Nat
  | .urgent => a.ceil_urgent
  | .high => a.ceil_high
  | .medium => a.ceil_medium
  | .low => a.ceil_low

/-- Relation `beats a b`: agent `a` is at least as good a choice as `b` in the
selection order — strictly fewer active tickets, or equally many and an
id that is not larger (the stable tie-break). -/
def beats (a b : Agent) : Prop :=
  a.active_tickets < b.active_tickets ∨
    (a.active_tickets = b.active_tickets ∧ a.id ≤ b.id)

instance (a b : Agent) : Decidable (beats a b) := by
  unfold beats
  infer_instance

/-- Linear scan keeping the best agent seen so far in the `beats`
order (fewest active tickets, ties by ascending id). -/
def selectBest (a : Agent) : List Agent → Agent
  | [] => a
  | b :: rest => selectBest (if beats a b then a else b) rest

/-- Modelled from the spec: pick from a list of (already filtered,
eligible) agents the one with the lowest active-ticket count, ties broken
by agent id ascending; `none` on the empty list. -/
def selectFrom : List Agent → Option Agent
  | [] => none
  | a :: rest => some (selectBest a rest)

/-- Modelled from the spec: `LoadBalancer.select(team, priority)` —
enumerate the team's agents whose active-ticket count is below the
ceiling configured for that agent/priority combination, and choose the
least-loaded one (ties by id); the no-eligible-agent outcome is `none`,
a normal result. -/
def select (agents : List Agent) (team : Team) (p : Priority) : Option Agent :=
  selectFrom (agents.filter fun a =>
    decide (a.team = team ∧ a.active_tickets < ceilingFor a p))

end LoadBalancer

/-! ## Query records and the Assignment Coordinator (spec §3, §4.4) -/

/-- Query record from the data model, restricted to the fields the engine
reads or writes.  Timestamps are minutes on the injected engine clock. -/
structure Query where
  id : Nat
  subject : String
  content : String
  category : Option Category
  priority : Priority
  tags : List String
  status : QStatus
  assigned_to : Option Nat
  received_at : Nat
  assigned_at : Option Nat
  last_escalated_at : Option Nat
  esc_state : EscState
deriving DecidableEq

/-- The reason carried by the `Unassigned` outcome. -/
inductive UnassignedReason
  | noEligibleAgent
deriving DecidableEq

/-- The `AssignmentOutcome` of spec §4.4: `Assigned(agent)` or
`Unassigned(reason)` — a normal result, not an exception. -/
inductive AssignOutcome
  | assigned (agentId : Nat)
  | unassigned (reason : UnassignedReason)
deriving DecidableEq

/-- The client-side status update of `QueryDetailPage`
(`handleStatusChange` → `queriesApi.updateStatus`): the query's status
becomes exactly the value chosen in the status `Select`. -/
def updateStatus (q : Query) (s : QStatus) : Query :=
  { q with status := s }

/-- Modelled from the spec: `assign(query)` — classify → direct →
balance.  On success the query's category/priority/tags/assignee/status/
assigned_at are updated as one logical transition; on "no eligible agent"
the query keeps its status and assignee but the classification fields
are still persisted (classification is never wasted). -/
def assign (now : Nat) (ai : Classifier.AICall) (agents : List LoadBalancer.Agent)
    (q : Query) : AssignOutcome × Query :=
  let cls := Classifier.classify ai q.subject q.content
  let cat := cls.category.getD .general
  let pri := cls.priority.getD .medium
  match LoadBalancer.select agents (TeamDirector.teamFor cat) pri with
  | some a =>
    (.assigned a.id,
     { q with category := cls.category, priority := pri, tags := cls.tags,
              status := .assigned, assigned_to := some a.id,
              assigned_at := some now })
  | none =>
    (.unassigned .noEligibleAgent,
     { q with category := cls.category, priority := pri, tags := cls.tags })

/-- Modelled from the spec (data-access interface): the currently
unassigned queries of the store. -/
def unassignedQueries (qs : List Query) : List Query :=
  qs.filter fun q => q.assigned_to.isNone

/-- Apply the optional caller-supplied limit of `batchAssign`. -/
def takeLimit : Option Nat → List Query → List Query
  | none, l => l
  | some n, l => l.take n

/-- Modelled from the spec: the processing order of `batchAssign` — all
currently-unassigned queries in received-time order (oldest first),
stopped at the optional caller-supplied limit. -/
def batchOrder (qs : List Query) (limit : Option Nat) : List Query :=
  takeLimit limit
    (List.insertionSort (fun a b => a.received_at ≤ b.received_at)
      (unassignedQueries qs))

/-- Modelled from the spec: `batchAssign(limit)` — apply `assign` to the
unassigned queries in received-time order; the result list is in
processing order. -/
def batchAssign (now : Nat) (ai : Classifier.AICall)
    (agents : List LoadBalancer.Agent) (qs : List Query)
    (limit : Option Nat) : List (AssignOutcome × Query) :=
  (batchOrder qs limit).map (assign now ai agents)

/-! ## Escalation Monitor (spec §4.5) -/

/-- Modelled from the spec: the SLA policy — maximum allowed
time-to-first-response per priority, in minutes (urgent 1h, high 4h,
medium 24h, low 72h). -/
def slaMinutes : Priority → Nat
  | .urgent => 60
  | .high => 240
  | .medium => 1440
  | .low => 4320

/-- Modelled from the spec: the secondary at-risk threshold at 80% of
the SLA. -/
def atRiskMinutes (p : Priority) : Nat :=
  slaMinutes p * 4 / 5

/-- Modelled from the spec: bump priority one level; urgent is a
ceiling. -/
def bump : Priority → Priority
  | .low => .medium
  | .medium => .high
  | .high => .urgent
  | .urgent => .urgent

/-- One entry of the transition list returned by `escalationSweep`:
before/after priority and assignee of a query that transitioned. -/
structure Transition where
  queryId : Nat
  beforePriority : Priority
  afterPriority : Priority
  beforeAssignee : Option Nat
  afterAssignee : Option Nat
deriving DecidableEq

/-- Resolved/closed queries are frozen from further escalation. -/
def isTerminal (s : QStatus) : Bool :=
  s == .resolved || s == .closed

/-- Modelled from the spec: on escalation the Load Balancer is re-invoked
on the agent snapshot for the bumped priority; the query is reassigned to
the selected agent, or keeps its assignee when no agent is eligible. -/
def escAssignee (agents : List LoadBalancer.Agent) (q : Query) : Option Nat :=
  match LoadBalancer.select agents
      (TeamDirector.teamFor (q.category.getD .general)) (bump q.priority) with
  | some a => some a.id
  | none => q.assigned_to

/-- Modelled from the spec: the per-query escalation step at clock `now`
(minutes).  Elapsed time counts from `received_at` or from the last
escalation; past the at-risk threshold the query is flagged (once), past
the full SLA the priority is bumped one level (urgent is a ceiling —
already-urgent queries are flagged but not bumped further) and the Load
Balancer is re-invoked for the new priority, reassigning when warranted. -/
def sweepOne (agents : List LoadBalancer.Agent) (now : Nat) (q : Query) :
    Query × Option Transition :=
  if isTerminal q.status then (q, none)
  else if slaMinutes q.priority < now - q.last_escalated_at.getD q.received_at then
    ({ q with priority := bump q.priority, esc_state := .escalated,
              last_escalated_at := some now,
              assigned_to := escAssignee agents q },
     some ⟨q.id, q.priority, bump q.priority, q.assigned_to,
           escAssignee agents q⟩)
  else if atRiskMinutes q.priority < now - q.last_escalated_at.getD q.received_at ∧
      q.esc_state = .onTrack then
    ({ q with esc_state := .atRisk },
     some ⟨q.id, q.priority, q.priority, q.assigned_to, q.assigned_to⟩)
  else (q, none)

/-- Modelled from the spec: `escalationSweep(now)` — a full scan over the
queries, returning the updated store and the list of transitions. -/
def escalationSweep (agents : List LoadBalancer.Agent) (now : Nat) :
    List Query → List Query × List Transition
  | [] => ([], [])
  | q :: rest =>
    let step := sweepOne agents now q
    let tail := escalationSweep agents now rest
    (step.1 :: tail.1,
     match step.2 with
     | some tr => tr :: tail.2
     | none => tail.2)

/-- Repeated sweeps: fold the per-query step over a list of clock
values. -/
def sweepAt (agents : List LoadBalancer.Agent) (q : Query)
    (ts : List Nat) : Query :=
  ts.foldl (fun s t => (sweepOne agents t s).1) q


/-! ## Load Balancer lemmas -/

namespace LoadBalancer

theorem beats_rfl (a : Agent) : beats a a :=
  Or.inr ⟨rfl, Nat.le_refl _⟩

theorem beats_trans {a b c : Agent} (h1 : beats a b) (h2 : beats b c) :
    beats a c := by
  unfold beats at *
  omega

theorem beats_total {a b : Agent} (h : ¬ beats a b) : beats b a := by
  unfold beats at *
  omega

theorem selectBest_mem (a : Agent) (l : List Agent) :
    selectBest a l ∈ a :: l := by
  induction l generalizing a with
  | nil => simp [selectBest]
  | cons b rest ih =>
    rw [selectBest]
    rcases List.mem_cons.mp (ih (if beats a b then a else b)) with h | h
    · rw [h]
      split
      · simp
      · simp
    · exact List.mem_cons_of_mem _ (List.mem_cons_of_mem _ h)

theorem selectBest_beats (a : Agent) (l : List Agent) :
    ∀ c ∈ a :: l, beats (selectBest a l) c := by
  induction l generalizing a with
  | nil =>
    intro c hc
    rw [List.mem_singleton] at hc
    subst hc
    rw [selectBest]
    exact beats_rfl c
  | cons b rest ih =>
    intro c hc
    rw [selectBest]
    have hsel := ih (if beats a b then a else b)
    rcases List.mem_cons.mp hc with hca | hc1
    · subst hca
      by_cases hab : beats c b
      · simpa [hab] using hsel c (by simp [hab])
      · have h1 : beats (selectBest b rest) b := by
          simpa [hab] using hsel b (by simp [hab])
        simpa [hab] using beats_trans h1 (beats_total hab)
    · rcases List.mem_cons.mp hc1 with hcb | hc2
      · subst hcb
        by_cases hab : beats a c
        · have h1 : beats (selectBest a rest) a := by
            simpa [hab] using hsel a (by simp [hab])
          simpa [hab] using beats_trans h1 hab
        · simpa [hab] using hsel c (by simp [hab])
      · exact hsel c (List.mem_cons_of_mem _ hc2)

theorem selectFrom_eq_none {l : List Agent} :
    selectFrom l = none ↔ l = [] := by
  cases l with
  | nil => simp [selectFrom]
  | cons a rest => simp [selectFrom]

theorem selectFrom_mem {l : List Agent} {a : Agent}
    (h : selectFrom l = some a) : a ∈ l := by
  cases l with
  | nil => simp [selectFrom] at h
  | cons x rest =>
    rw [selectFrom] at h
    have hx := Option.some.inj h
    rw [← hx]
    exact selectBest_mem x rest

theorem selectFrom_beats {l : List Agent} {a : Agent}
    (h : selectFrom l = some a) : ∀ b ∈ l, beats a b := by
  cases l with
  | nil => simp [selectFrom] at h
  | cons x rest =>
    rw [selectFrom] at h
    have hx := Option.some.inj h
    rw [← hx]
    exact selectBest_beats x rest

end LoadBalancer

/-! ## Claim theorems: Classifier and Load Balancer -/

theorem ruleClassify_isSome (subject content : String) :
    (Classifier.ruleClassify subject content).category.isSome = true ∧
    (Classifier.ruleClassify subject content).priority.isSome = true := by
  rw [Classifier.ruleClassify]
  split_ifs <;> simp

/-- C1: for every AI-call outcome (including failure, timeout and an
unparsable response) and every input text, `Classifier.classify` returns
a classification whose category and priority are non-null; it is a total
function and never surfaces an error to the caller — the fallback path is
taken exactly when the AI path yields nothing. -/
theorem classify_total (ai : Classifier.AICall) (subject content : String) :
    (Classifier.classify ai subject content).category.isSome = true ∧
    (Classifier.classify ai subject content).priority.isSome = true := by
  cases ai with
  | failure =>
    simpa [Classifier.classify, Classifier.aiParse] using
      ruleClassify_isSome subject content
  | timeout =>
    simpa [Classifier.classify, Classifier.aiParse] using
      ruleClassify_isSome subject content
  | response c p tags =>
    rw [Classifier.classify, Classifier.aiParse]
    cases hc : Classifier.parseCategory c with
    | none => simpa using ruleClassify_isSome subject content
    | some cat =>
      cases hp : Classifier.parsePriority p with
      | none => simpa using ruleClassify_isSome subject content
      | some pri => simp

/-- C2: `LoadBalancer.select(team, priority)` never returns an agent
whose current active-ticket count is greater than or equal to the
capacity ceiling configured for that agent/priority combination. -/
theorem select_respects_capacity (agents : List LoadBalancer.Agent)
    (team : Team) (p : Priority) (a : LoadBalancer.Agent)
    (h : LoadBalancer.select agents team p = some a) :
    a.active_tickets < LoadBalancer.ceilingFor a p := by
  rw [LoadBalancer.select] at h
  have hm := LoadBalancer.selectFrom_mem h
  rw [List.mem_filter] at hm
  exact (of_decide_eq_true hm.2).2

theorem select_respects_capacity_witness :
    (⟨1, "A", Team.support, 0, 10, 10, 10, 10⟩ : LoadBalancer.Agent).active_tickets <
      LoadBalancer.ceilingFor ⟨1, "A", Team.support, 0, 10, 10, 10, 10⟩
        Priority.medium :=
  select_respects_capacity
    [⟨1, "A", Team.support, 0, 10, 10, 10, 10⟩]
    Team.support Priority.medium
    ⟨1, "A", Team.support, 0, 10, 10, 10, 10⟩ (by decide)

/-- C3: whenever at least one agent of the team is eligible,
`LoadBalancer.select` returns an eligible agent of that team whose
active-ticket count is minimal among the eligible agents, ties broken by
ascending agent id; being a pure function of the input state, two runs on
identical state return the same agent. -/
theorem select_picks_least_loaded (agents : List LoadBalancer.Agent)
    (team : Team) (p : Priority)
    (h : ∃ b ∈ agents, b.team = team ∧
      b.active_tickets < LoadBalancer.ceilingFor b p) :
    ∃ a, LoadBalancer.select agents team p = some a ∧ a ∈ agents ∧
      a.team = team ∧ a.active_tickets < LoadBalancer.ceilingFor a p ∧
      ∀ b ∈ agents, b.team = team →
        b.active_tickets < LoadBalancer.ceilingFor b p →
        (a.active_tickets < b.active_tickets ∨
          (a.active_tickets = b.active_tickets ∧ a.id ≤ b.id)) := by
  obtain ⟨b, hb, hbt, hbc⟩ := h
  have hbf : b ∈ agents.filter fun x =>
      decide (x.team = team ∧ x.active_tickets < LoadBalancer.ceilingFor x p) :=
    List.mem_filter.mpr ⟨hb, decide_eq_true ⟨hbt, hbc⟩⟩
  cases hs : LoadBalancer.selectFrom (agents.filter fun x =>
      decide (x.team = team ∧ x.active_tickets < LoadBalancer.ceilingFor x p)) with
  | none =>
    rw [LoadBalancer.selectFrom_eq_none.mp hs] at hbf
    simp at hbf
  | some a =>
    have hmem := LoadBalancer.selectFrom_mem hs
    rw [List.mem_filter] at hmem
    have hprops := of_decide_eq_true hmem.2
    refine ⟨a, hs, hmem.1, hprops.1, hprops.2, ?_⟩
    intro c hc hct hcc
    exact LoadBalancer.selectFrom_beats hs c
      (List.mem_filter.mpr ⟨hc, decide_eq_true ⟨hct, hcc⟩⟩)

theorem select_picks_least_loaded_witness :
    (∃ b ∈ [(⟨1, "A", Team.support, 0, 10, 10, 10, 10⟩ : LoadBalancer.Agent),
            ⟨2, "B", Team.support, 9, 10, 10, 10, 10⟩],
      b.team = Team.support ∧
        b.active_tickets < LoadBalancer.ceilingFor b Priority.medium) ∧
    (∃ a, LoadBalancer.select
        [(⟨1, "A", Team.support, 0, 10, 10, 10, 10⟩ : LoadBalancer.Agent),
         ⟨2, "B", Team.support, 9, 10, 10, 10, 10⟩]
        Team.support Priority.medium = some a ∧
      a ∈ [(⟨1, "A", Team.support, 0, 10, 10, 10, 10⟩ : LoadBalancer.Agent),
           ⟨2, "B", Team.support, 9, 10, 10, 10, 10⟩] ∧
      a.team = Team.support ∧
      a.active_tickets < LoadBalancer.ceilingFor a Priority.medium ∧
      ∀ b ∈ [(⟨1, "A", Team.support, 0, 10, 10, 10, 10⟩ : LoadBalancer.Agent),
             ⟨2, "B", Team.support, 9, 10, 10, 10, 10⟩],
        b.team = Team.support →
        b.active_tickets < LoadBalancer.ceilingFor b Priority.medium →
        (a.active_tickets < b.active_tickets ∨
          (a.active_tickets = b.active_tickets ∧ a.id ≤ b.id))) :=
  ⟨by decide,
   select_picks_least_loaded
     [⟨1, "A", Team.support, 0, 10, 10, 10, 10⟩,
      ⟨2, "B", Team.support, 9, 10, 10, 10, 10⟩]
     Team.support Priority.medium (by decide)⟩

/-! ## Escalation lemmas -/

theorem sweepOne_terminal_eq (agents : List LoadBalancer.Agent) (now : Nat)
    (q : Query) (h : isTerminal q.status = true) :
    sweepOne agents now q = (q, none) := by
  rw [sweepOne, if_pos h]

theorem sweepOne_escalate_eq (agents : List LoadBalancer.Agent) (now : Nat)
    (q : Query) (h1 : isTerminal q.status = false)
    (h2 : slaMinutes q.priority < now - q.last_escalated_at.getD q.received_at) :
    sweepOne agents now q =
      ({ q with priority := bump q.priority, esc_state := .escalated,
                last_escalated_at := some now,
                assigned_to := escAssignee agents q },
       some ⟨q.id, q.priority, bump q.priority, q.assigned_to,
             escAssignee agents q⟩) := by
  rw [sweepOne, if_neg (by simp [h1]), if_pos h2]

theorem sweepOne_atRisk_eq (agents : List LoadBalancer.Agent) (now : Nat)
    (q : Query) (h1 : isTerminal q.status = false)
    (h2 : ¬ slaMinutes q.priority < now - q.last_escalated_at.getD q.received_at)
    (h3 : atRiskMinutes q.priority < now - q.last_escalated_at.getD q.received_at ∧
      q.esc_state = .onTrack) :
    sweepOne agents now q =
      ({ q with esc_state := .atRisk },
       some ⟨q.id, q.priority, q.priority, q.assigned_to, q.assigned_to⟩) := by
  rw [sweepOne, if_neg (by simp [h1]), if_neg h2, if_pos h3]

theorem sweepOne_none_eq (agents : List LoadBalancer.Agent) (now : Nat)
    (q : Query) (h1 : isTerminal q.status = false)
    (h2 : ¬ slaMinutes q.priority < now - q.last_escalated_at.getD q.received_at)
    (h3 : ¬ (atRiskMinutes q.priority < now - q.last_escalated_at.getD q.received_at ∧
      q.esc_state = .onTrack)) :
    sweepOne agents now q = (q, none) := by
  rw [sweepOne, if_neg (by simp [h1]), if_neg h2, if_neg h3]

theorem sweepOne_status (agents : List LoadBalancer.Agent) (now : Nat)
    (q : Query) : (sweepOne agents now q).1.status = q.status := by
  rw [sweepOne]
  split_ifs <;> rfl

theorem bump_rank_mono (p : Priority) : priorityRank p ≤ priorityRank (bump p) := by
  cases p <;> decide

theorem sweepOne_priority_mono (agents : List LoadBalancer.Agent) (now : Nat)
    (q : Query) :
    priorityRank q.priority ≤ priorityRank (sweepOne agents now q).1.priority := by
  rw [sweepOne]
  split_ifs
  · exact Nat.le_refl _
  · exact bump_rank_mono q.priority
  · exact Nat.le_refl _
  · exact Nat.le_refl _

theorem sweepOne_urgent (agents : List LoadBalancer.Agent) (now : Nat)
    (q : Query) (h : q.priority = .urgent) :
    (sweepOne agents now q).1.priority = .urgent := by
  rw [sweepOne]
  split_ifs
  · exact h
  · show bump q.priority = .urgent
    rw [h]
    rfl
  · exact h
  · exact h

theorem sweepOne_idem (agents : List LoadBalancer.Agent) (now : Nat)
    (q : Query) : (sweepOne agents now (sweepOne agents now q).1).2 = none := by
  cases ht : isTerminal q.status with
  | true => simp [sweepOne_terminal_eq agents now q ht]
  | false =>
    by_cases h2 : slaMinutes q.priority < now - q.last_escalated_at.getD q.received_at
    · have e2 : sweepOne agents now
          ({ q with priority := bump q.priority, esc_state := .escalated,
                    last_escalated_at := some now,
                    assigned_to := escAssignee agents q }) =
          ({ q with priority := bump q.priority, esc_state := .escalated,
                    last_escalated_at := some now,
                    assigned_to := escAssignee agents q }, none) := by
        apply sweepOne_none_eq
        · exact ht
        · simp
        · simp
      simp [sweepOne_escalate_eq agents now q ht h2, e2]
    · by_cases h3 : atRiskMinutes q.priority <
          now - q.last_escalated_at.getD q.received_at ∧ q.esc_state = .onTrack
      · have e2 : sweepOne agents now ({ q with esc_state := .atRisk }) =
            ({ q with esc_state := .atRisk }, none) := by
          apply sweepOne_none_eq
          · exact ht
          · exact h2
          · simp
        simp [sweepOne_atRisk_eq agents now q ht h2 h3, e2]
      · simp [sweepOne_none_eq agents now q ht h2 h3]

/-- C5: `escalationSweep` is idempotent at a fixed clock value — for every
store state, running the sweep twice at the same `now` with no intervening
state change yields an empty transition list on the second run. -/
theorem escalationSweep_idem (agents : List LoadBalancer.Agent) (now : Nat)
    (qs : List Query) :
    (escalationSweep agents now (escalationSweep agents now qs).1).2 = [] := by
  induction qs with
  | nil => simp [escalationSweep]
  | cons q rest ih =>
    simp only [escalationSweep]
    rw [sweepOne_idem agents now q]
    exact ih

/-- C6: under repeated escalation sweeps with non-decreasing `now`, a
query's priority never decreases, and urgent is a ceiling — a query
already at priority urgent keeps priority urgent through every sweep
(it is only flagged, never bumped to another value). -/
theorem escalation_priority_monotonic (agents : List LoadBalancer.Agent)
    (q : Query) (ts : List Nat) (h : List.Sorted (· ≤ ·) ts) :
    priorityRank q.priority ≤ priorityRank (sweepAt agents q ts).priority ∧
    (q.priority = .urgent → (sweepAt agents q ts).priority = .urgent) := by
  induction ts generalizing q with
  | nil => exact ⟨Nat.le_refl _, fun hq => hq⟩
  | cons t ts ih =>
    have h' : List.Sorted (· ≤ ·) ts := h.of_cons
    constructor
    · exact Nat.le_trans (sweepOne_priority_mono agents t q)
        (ih ((sweepOne agents t q).1) h').1
    · intro hu
      exact (ih ((sweepOne agents t q).1) h').2 (sweepOne_urgent agents t q hu)

theorem escalation_priority_monotonic_witness :
    priorityRank (⟨1, "s", "c", none, Priority.medium, [], QStatus.new, none,
        0, none, none, EscState.onTrack⟩ : Query).priority ≤
      priorityRank (sweepAt []
        ⟨1, "s", "c", none, Priority.medium, [], QStatus.new, none,
         0, none, none, EscState.onTrack⟩ [100, 2000]).priority :=
  (escalation_priority_monotonic []
    ⟨1, "s", "c", none, Priority.medium, [], QStatus.new, none,
     0, none, none, EscState.onTrack⟩ [100, 2000] (by simp)).1

/-- C7: when `assign` finds no eligible agent it returns the normal
`Unassigned(no-eligible-agent)` outcome, leaves the query's status `new`
and its assignee null, and still persists the category, priority and tags
produced by classification. -/
theorem assign_no_eligible_agent (now : Nat) (ai : Classifier.AICall)
    (agents : List LoadBalancer.Agent) (q : Query)
    (hs : q.status = .new) (ha : q.assigned_to = none)
    (hno : LoadBalancer.select agents
        (TeamDirector.teamFor
          ((Classifier.classify ai q.subject q.content).category.getD .general))
        ((Classifier.classify ai q.subject q.content).priority.getD .medium) =
        none) :
    (assign now ai agents q).1 = .unassigned .noEligibleAgent ∧
    (assign now ai agents q).2.status = .new ∧
    (assign now ai agents q).2.assigned_to = none ∧
    (assign now ai agents q).2.category =
      (Classifier.classify ai q.subject q.content).category ∧
    (assign now ai agents q).2.priority =
      (Classifier.classify ai q.subject q.content).priority.getD .medium ∧
    (assign now ai agents q).2.tags =
      (Classifier.classify ai q.subject q.content).tags := by
  simp only [assign]
  rw [hno]
  simp [hs, ha]

theorem assign_no_eligible_agent_witness :
    (assign 5 Classifier.AICall.failure []
      ⟨3, "please help", "thanks", none, Priority.low, [], QStatus.new, none,
       0, none, none, EscState.onTrack⟩).1 =
      AssignOutcome.unassigned .noEligibleAgent :=
  (assign_no_eligible_agent 5 Classifier.AICall.failure []
    ⟨3, "please help", "thanks", none, Priority.low, [], QStatus.new, none,
     0, none, none, EscState.onTrack⟩ rfl rfl rfl).1

/-! ## Batch assignment ordering -/

instance : IsTotal Query fun a b => a.received_at ≤ b.received_at :=
  ⟨fun a b => Nat.le_total a.received_at b.received_at⟩

instance : IsTrans Query fun a b => a.received_at ≤ b.received_at :=
  ⟨fun _ _ _ => Nat.le_trans⟩

theorem assign_received (now : Nat) (ai : Classifier.AICall)
    (agents : List LoadBalancer.Agent) (q : Query) :
    (assign now ai agents q).2.received_at = q.received_at := by
  simp only [assign]
  split <;> rfl

/-- C4: `batchAssign` processes the currently-unassigned queries in
ascending `received_at` order — in the processing order no query comes
before another with an earlier `received_at` — and stops after the
optional caller-supplied limit. -/
theorem batchAssign_ordered (now : Nat) (ai : Classifier.AICall)
    (agents : List LoadBalancer.Agent) (qs : List Query) (limit : Option Nat) :
    List.Pairwise (fun x y => x.2.received_at ≤ y.2.received_at)
      (batchAssign now ai agents qs limit) ∧
    (∀ n, limit = some n → (batchAssign now ai agents qs limit).length ≤ n) := by
  constructor
  · rw [batchAssign, List.pairwise_map]
    have h0 : List.Sorted (fun a b : Query => a.received_at ≤ b.received_at)
        (List.insertionSort (fun a b => a.received_at ≤ b.received_at)
          (unassignedQueries qs)) :=
      List.sorted_insertionSort _ _
    have hsorted : List.Pairwise
        (fun a b : Query => a.received_at ≤ b.received_at)
        (batchOrder qs limit) := by
      rw [batchOrder]
      cases limit with
      | none => exact h0
      | some n => exact List.Pairwise.sublist (List.take_sublist n _) h0
    refine hsorted.imp ?_
    intro a b hab
    rw [assign_received, assign_received]
    exact hab
  · intro n hn
    subst hn
    rw [batchAssign, List.length_map, batchOrder]
    exact List.length_take_le n _

theorem batchAssign_ordered_witness :
    (batchAssign 0 Classifier.AICall.failure []
      [⟨1, "a", "x", none, Priority.low, [], QStatus.new, none, 20, none,
        none, EscState.onTrack⟩,
       ⟨2, "b", "y", none, Priority.low, [], QStatus.new, none, 10, none,
        none, EscState.onTrack⟩] (some 1)).length ≤ 1 :=
  (batchAssign_ordered 0 Classifier.AICall.failure []
    [⟨1, "a", "x", none, Priority.low, [], QStatus.new, none, 20, none,
      none, EscState.onTrack⟩,
     ⟨2, "b", "y", none, Priority.low, [], QStatus.new, none, 10, none,
      none, EscState.onTrack⟩] (some 1)).2 1 rfl

/-! ## Status lifecycle -/

/-- C8 counterexample: the status-update operation exposed on the query
detail page, applied to a resolved query with the always-offered option
`new`, yields a status at an earlier stage than before — so it is not the
case that every exposed operation moves status only forward. -/
theorem updateStatus_backward_counterexample :
    QStatus.new ∈ statusSelectOptions ∧
    statusRank (updateStatus
        ⟨7, "s", "c", some Category.question, Priority.medium, [],
         QStatus.resolved, some 3, 0, some 10, none, EscState.onTrack⟩
        QStatus.new).status <
      statusRank
        (⟨7, "s", "c", some Category.question, Priority.medium, [],
          QStatus.resolved, some 3, 0, some 10, none,
          EscState.onTrack⟩ : Query).status := by
  constructor
  · simp [statusSelectOptions]
  · decide

/-- C8 (amended): the engine's own operations never move a status-`new`
query's status backward — `assign` leaves it at `new` or advances it, and
an escalation sweep never changes status — but the status-update
operation exposed by the query detail page offers all five statuses
unconditionally and sets the status to exactly the selected value, which
may be an earlier stage; forward-only movement is not enforced at that
interface. -/
theorem status_transitions_amended (now : Nat) (ai : Classifier.AICall)
    (agents : List LoadBalancer.Agent) (q : Query) (s : QStatus)
    (h : q.status = .new) :
    statusRank q.status ≤ statusRank (assign now ai agents q).2.status ∧
    (sweepOne agents now q).1.status = q.status ∧
    (updateStatus q s).status = s ∧ s ∈ statusSelectOptions := by
  refine ⟨?_, sweepOne_status agents now q, rfl, ?_⟩
  · rw [h]
    exact Nat.zero_le _
  · cases s <;> simp [statusSelectOptions]

theorem status_transitions_amended_witness :
    (updateStatus
      ⟨4, "s", "c", none, Priority.low, [], QStatus.new, none, 0, none,
       none, EscState.onTrack⟩ QStatus.closed).status = QStatus.closed :=
  (status_transitions_amended 0 Classifier.AICall.failure []
    ⟨4, "s", "c", none, Priority.low, [], QStatus.new, none, 0, none,
     none, EscState.onTrack⟩ QStatus.closed rfl).2.2.1

/-! ## Frontend claim theorems -/

/-- C9: `formatRelativeTime` is total, and with `m` the elapsed
milliseconds it returns "just now" when `floor(m/60000) < 1` (which
covers every future date, where `m` is negative), "Nm ago" with
`N = floor(m/60000)` when that lies in `[1, 60)`, "Nh ago" with
`N = floor(m/3600000)` when the minutes are `≥ 60` and the hours are
`< 24`, and "Nd ago" with `N = floor(m/86400000)` otherwise (equivalent
to the hours being `≥ 24`). -/
theorem formatRelativeTime_spec (nowMs thenMs : Int) :
    ((nowMs - thenMs) / 60000 < 1 →
      formatRelativeTime nowMs thenMs = "just now") ∧
    (1 ≤ (nowMs - thenMs) / 60000 → (nowMs - thenMs) / 60000 < 60 →
      formatRelativeTime nowMs thenMs =
        toString ((nowMs - thenMs) / 60000) ++ "m ago") ∧
    (60 ≤ (nowMs - thenMs) / 60000 → (nowMs - thenMs) / 3600000 < 24 →
      formatRelativeTime nowMs thenMs =
        toString ((nowMs - thenMs) / 3600000) ++ "h ago") ∧
    (24 ≤ (nowMs - thenMs) / 3600000 →
      formatRelativeTime nowMs thenMs =
        toString ((nowMs - thenMs) / 86400000) ++ "d ago") := by
  refine ⟨?_, ?_, ?_, ?_⟩
  · intro h1
    simp only [formatRelativeTime]
    rw [if_pos h1]
  · intro h1 h2
    simp only [formatRelativeTime]
    rw [if_neg (by omega), if_pos h2]
  · intro h1 h2
    simp only [formatRelativeTime]
    rw [if_neg (by omega), if_neg (by omega), if_pos h2]
  · intro h1
    simp only [formatRelativeTime]
    rw [if_neg (by omega), if_neg (by omega), if_neg (by omega)]

theorem formatRelativeTime_spec_witness :
    formatRelativeTime 120000 0 =
      toString ((120000 - 0 : Int) / 60000) ++ "m ago" :=
  (formatRelativeTime_spec 120000 0).2.1 (by decide) (by decide)

/-- C10: with `totalPages = ceil(total/20)`, the Previous handler maps a
page `p` to `max(1, p-1)` and the Next handler to
`min(totalPages, p+1)`; for every state with `totalPages ≥ 1` and
`1 ≤ p ≤ totalPages`, both handlers yield a page within
`[1, totalPages]`. -/
theorem inbox_pagination_bounds (total page : Nat)
    (h1 : 1 ≤ totalPages total) (h2 : 1 ≤ page)
    (h3 : page ≤ totalPages total) :
    1 ≤ prevPage page ∧ prevPage page ≤ totalPages total ∧
    1 ≤ nextPage (totalPages total) page ∧
    nextPage (totalPages total) page ≤ totalPages total := by
  unfold prevPage nextPage totalPages at *
  omega

theorem inbox_pagination_bounds_witness :
    1 ≤ prevPage 2 ∧ prevPage 2 ≤ totalPages 40 ∧
    1 ≤ nextPage (totalPages 40) 2 ∧
    nextPage (totalPages 40) 2 ≤ totalPages 40 :=
  inbox_pagination_bounds 40 2 (by decide) (by decide) (by decide)
